import Mathlib

/-!
Verification of the RacingLineGenerator core against its specification.

The Python source is shallowly embedded here: floating-point arithmetic is
idealised as real arithmetic, Python lists become Lean lists, and the value
math.inf returned by Sector.radius for degenerate (colinear) sectors is
represented by the value none of an Option type; at every use site the
source divides a finite float by that radius, which under IEEE semantics
yields exactly 0.0, and the embedding reproduces that case explicitly.
Fallible Python operations (list indexing past the end, the comparison of a
complex number with a float, min of an empty sequence) are embedded with an
Except monad over an explicit error type.
-/

open scoped Classical

/-- Density of air in kg per cubic metre (constants.py). -/
noncomputable def AIR_DENSITY : ℝ := 1.19

/-- Gravitational acceleration in metres per second squared (constants.py). -/
noncomputable def GRAV_ACCELERATION : ℝ := 9.8

/-- Python exception kinds that the embedded code can raise. -/
inductive PyErr where
  | indexError
  | typeError
  | valueError

/-- A 3D point with vector arithmetic (the mathutils vector used by the source). -/
structure Point where
  x : ℝ
  y : ℝ
  z : ℝ

instance : Inhabited Point := ⟨⟨0, 0, 0⟩⟩

/-- Componentwise vector subtraction. -/
def Point.sub (a b : Point) : Point := ⟨a.x - b.x, a.y - b.y, a.z - b.z⟩

/-- Componentwise vector addition. -/
def Point.add (a b : Point) : Point := ⟨a.x + b.x, a.y + b.y, a.z + b.z⟩

/-- Vector times scalar. -/
def Point.smul (a : Point) (c : ℝ) : Point := ⟨a.x * c, a.y * c, a.z * c⟩

/-- Euclidean magnitude of a vector. -/
noncomputable def Point.len (a : Point) : ℝ := Real.sqrt (a.x ^ 2 + a.y ^ 2 + a.z ^ 2)

/-- clamp from utils.py: max(min(value, max_value), min_value). -/
noncomputable def clamp (value min_value max_value : ℝ) : ℝ :=
  max (min value max_value) min_value

/-- A sector: three consecutive points of a path (racing_line.py, class Sector).
Every sector the source constructs has exactly the three vertices
[start, mid, end], so the vertex list is represented by its three elements.
The source field named end is called end_ here because end is a Lean keyword. -/
structure Sector where
  start : Point
  mid : Point
  end_ : Point

instance : Inhabited Sector := ⟨⟨default, default, default⟩⟩

/-- Sector.radius (racing_line.py lines 29-54).  The returned value math.inf
for a degenerate (angle 0 or pi) sector is embedded as none.
Python would raise ZeroDivisionError when b or c is zero (repeated points);
the embedding is total there, and no theorem below touches that case. -/
noncomputable def Sector.radius (s : Sector) : Option ℝ :=
  let a := (s.end_.sub s.start).len
  let b := (s.end_.sub s.mid).len
  let c := (s.mid.sub s.start).len
  let cos_angle := (c ^ 2 + b ^ 2 - a ^ 2) / (2 * b * c)
  let cos_clamped := if cos_angle > 1 then 1 else if cos_angle < -1 then -1 else cos_angle
  let sector_angle := Real.arccos cos_clamped
  if sector_angle = 0 ∨ sector_angle = Real.pi then none
  else some (a / (2 * Real.sin (Real.pi - sector_angle)))

/-- Sector.length (racing_line.py lines 56-75): cumulative length walking
start -> mid -> end.  The source loop starts at the first vertex and adds the
zero-length segment from start to itself first. -/
noncomputable def Sector.length (s : Sector) : ℝ :=
  (s.mid.sub s.start).len + (s.end_.sub s.mid).len

/-- The car parameter record (car.py). -/
structure Car where
  max_velocity : ℝ
  max_acceleration : ℝ
  friction : ℝ
  mass : ℝ
  drag_coefficient : ℝ
  frontal_area : ℝ
  base_engine_power : ℝ
  max_engine_power : ℝ

/-- Car.get_engine_power (car.py lines 47-72): engine power as a step function
of velocity bands. -/
noncomputable def Car.get_engine_power (car : Car) (velocity : ℝ) : ℝ :=
  let diff := car.max_engine_power - car.base_engine_power
  if 0 ≤ velocity ∧ velocity < 10 then car.base_engine_power + diff * 0.2
  else if 10 ≤ velocity ∧ velocity < 40 then car.base_engine_power + diff * 0.5
  else if 40 ≤ velocity ∧ velocity < 70 then car.base_engine_power + diff * 0.7
  else if 70 ≤ velocity ∧ velocity < 90 then car.base_engine_power + diff * 0.9
  else car.max_engine_power

/-- Car.get_max_acceleration (car.py lines 94-123): acceleration derating by
velocity band. -/
noncomputable def Car.get_max_acceleration (car : Car) (velocity : ℝ) : ℝ :=
  if 0 ≤ velocity ∧ velocity < 28 then car.max_acceleration * 0.75
  else if 28 ≤ velocity ∧ velocity < 56 then car.max_acceleration * 1.0
  else if 56 ≤ velocity ∧ velocity < 84 then car.max_acceleration * 0.45
  else if 84 ≤ velocity ∧ velocity < car.max_velocity then car.max_acceleration * 0.3
  else 0.0

/-- A racing line: an ordered sequence of vertices (racing_line.py, class RacingLine). -/
structure RacingLine where
  vertices : List Point

/-- RacingLine.get_sector (racing_line.py lines 124-144).
Python int(len/2) is natural division; list indices are reduced modulo the
vertex count exactly as in the source.  For a one-vertex line Python would
raise ZeroDivisionError on idx % 0; the embedding is total there and no
theorem below touches that case. -/
def RacingLine.get_sector (rl : RacingLine) (idx : Nat) : Sector :=
  let n := rl.vertices.length
  let idx2 := if idx ≥ n / 2 then idx % (n / 2) else idx
  let start_idx := idx2 * 2
  let mid_idx := (start_idx + 1) % n
  let end_idx := (start_idx + 2) % n
  ⟨rl.vertices.getD start_idx default, rl.vertices.getD mid_idx default,
    rl.vertices.getD end_idx default⟩

/-- RacingLine.sectors (racing_line.py lines 146-165): an empty line yields [],
otherwise one sector per iteration of range(0, count, 2), i.e. ceil(count/2)
sectors, indexed 0, 1, 2, ... -/
def RacingLine.sectors (rl : RacingLine) : List Sector :=
  match rl.vertices with
  | [] => []
  | _ :: _ => (List.range ((rl.vertices.length + 1) / 2)).map rl.get_sector

/-- Helper for RacingLine.length: walk the vertex list accumulating segment
lengths, where prev is the previously visited vertex. -/
noncomputable def polylineLength : Point → List Point → ℝ
  | _, [] => 0
  | prev, v :: rest => (v.sub prev).len + polylineLength v rest

/-- RacingLine.length (racing_line.py lines 167-186): 0 for an empty line,
otherwise the walk starting from the first vertex (whose first step has
length zero, as in the source loop). -/
noncomputable def RacingLine.length (rl : RacingLine) : ℝ :=
  match rl.vertices with
  | [] => 0
  | v :: _ => polylineLength v rl.vertices

/-- Loop body of RacingLine.generate_from_weights: for each index in
range(len(left vertices)), index the right vertex list and the weight list
(either of which can raise IndexError when shorter), and interpolate.
Errors propagate exactly as Python exceptions would. -/
noncomputable def genVerts (weights : List ℝ) (l r : List Point) :
    List Nat → Except PyErr (List Point)
  | [] => Except.ok []
  | idx :: rest =>
    match l.get? idx with
    | none => Except.error PyErr.indexError
    | some lv =>
      match r.get? idx with
      | none => Except.error PyErr.indexError
      | some rv =>
        match weights.get? idx with
        | none => Except.error PyErr.indexError
        | some w =>
          match genVerts weights l r rest with
          | Except.error e => Except.error e
          | Except.ok vs =>
            Except.ok (lv.add ((rv.sub lv).smul (clamp w 0 1)) :: vs)

/-- RacingLine.generate_from_weights (racing_line.py lines 95-122).  The loop
runs over range(len(left vertices)); when the other two sequences are longer
the surplus entries are never read. -/
noncomputable def generate_from_weights (weights : List ℝ)
    (left_limit right_limit : RacingLine) : Except PyErr RacingLine :=
  match genVerts weights left_limit.vertices right_limit.vertices
      (List.range left_limit.vertices.length) with
  | Except.error e => Except.error e
  | Except.ok vs => Except.ok ⟨vs⟩

/-- LapTimeCalculator.get_sector_max_velocity (lap_time_calculator.py lines
92-111); Car.get_max_velocity is a verbatim duplicate in the source.
mass / radius is 0.0 when the radius is math.inf. -/
noncomputable def get_sector_max_velocity (s : Sector) (car : Car) : ℝ :=
  let total_force := car.friction * car.mass * GRAV_ACCELERATION
  let drag := car.drag_coefficient * 0.5 * AIR_DENSITY * car.frontal_area
  let mass_over_radius : ℝ :=
    match s.radius with
    | none => 0
    | some r => car.mass / r
  let denom := (mass_over_radius ^ 2 + drag ^ 2) ^ ((1 : ℝ) / 4)
  let velocity := Real.sqrt total_force / denom
  if velocity > car.max_velocity then car.max_velocity else velocity

/-- LapTimeCalculator.get_sector_entry_velocity (lap_time_calculator.py lines
113-135); Car.get_entry_velocity is a verbatim duplicate in the source.
This is the real-arithmetic idealisation: it agrees with the Python code
whenever the braking-force radicand is nonnegative.  The Python behaviour on
a negative radicand (a complex value that finally raises TypeError) is
captured by get_sector_entry_velocity_py below. -/
noncomputable def get_sector_entry_velocity (s : Sector) (car : Car)
    (exit_velocity : ℝ) : ℝ :=
  let total_force := car.friction * car.mass * GRAV_ACCELERATION
  let centripetal_force : ℝ :=
    match s.radius with
    | none => 0
    | some r => car.mass * exit_velocity ^ 2 / r
  let braking_force := Real.sqrt (total_force ^ 2 - centripetal_force ^ 2)
  let drag_force :=
    car.drag_coefficient * 0.5 * AIR_DENSITY * exit_velocity ^ 2 * car.frontal_area
  let decelerative_force := braking_force + drag_force
  let delta_velocity := 2 * s.length * decelerative_force / car.mass
  let entry_velocity := Real.sqrt (exit_velocity ^ 2 + delta_velocity)
  if entry_velocity > car.max_velocity then car.max_velocity else entry_velocity

/-- LapTimeCalculator.get_sector_exit_velocity (lap_time_calculator.py lines
137-159); Car.get_exit_velocity is a verbatim duplicate in the source. -/
noncomputable def get_sector_exit_velocity (s : Sector) (car : Car)
    (entry_velocity : ℝ) : ℝ :=
  let drag_force :=
    car.drag_coefficient * 0.5 * AIR_DENSITY * entry_velocity ^ 2 * car.frontal_area
  let power := car.get_engine_power entry_velocity
  let p_velocity := if entry_velocity = 0 then 1 else entry_velocity
  let acceleration := (power / p_velocity - drag_force) / car.mass
  let max_acceleration := car.get_max_acceleration entry_velocity
  let acceleration2 :=
    if acceleration > max_acceleration then max_acceleration else acceleration
  let exit_velocity := Real.sqrt (entry_velocity ^ 2 + 2 * acceleration2 * s.length)
  if exit_velocity > car.max_velocity then car.max_velocity else exit_velocity

/-- First pass of LapTimeCalculator.calculate_lap_time (lines 41-49): walk the
sectors accumulating clamped entry and exit velocities; the velocity carried
into the next sector is the clamped exit velocity. -/
noncomputable def forwardPass : List Sector → Car → ℝ → List ℝ × List ℝ
  | [], _, _ => ([], [])
  | s :: rest, car, entry_velocity =>
    let exit_velocity := get_sector_exit_velocity s car entry_velocity
    let max_sector_velocity := get_sector_max_velocity s car
    let entry2 :=
      if entry_velocity > max_sector_velocity then max_sector_velocity else entry_velocity
    let exit2 :=
      if exit_velocity > max_sector_velocity then max_sector_velocity else exit_velocity
    let tail := forwardPass rest car exit2
    (entry2 :: tail.1, exit2 :: tail.2)

/-- Second pass of LapTimeCalculator.calculate_lap_time (lines 51-61).  The
counter k plays the role of the reversed range: a call with counter k + 1
processes current index k and then recurses with last := k, so calling with
k = n and last = 0 walks current = n-1, n-2, ..., 0 exactly as the source
loop does. -/
noncomputable def backwardStepsAux (ss : List Sector) (car : Car) :
    Nat → List ℝ → List ℝ → Nat → List ℝ × List ℝ
  | 0, es, xs, _ => (es, xs)
  | k + 1, es, xs, last =>
    let current := k
    if xs.getD current 0 > es.getD last 0 then
      let max_entry_velocity :=
        get_sector_entry_velocity (ss.getD current default) car (es.getD last 0)
      let es2 :=
        if es.getD current 0 > max_entry_velocity then es.set current max_entry_velocity
        else es
      let xs2 := xs.set current (es2.getD last 0)
      backwardStepsAux ss car k es2 xs2 current
    else
      backwardStepsAux ss car k es xs current

/-- The entry/exit velocity arrays after both passes of calculate_lap_time. -/
noncomputable def lapVelocities (rl : RacingLine) (car : Car) (v0 : ℝ) :
    List ℝ × List ℝ :=
  let ss := rl.sectors
  let fwd := forwardPass ss car v0
  backwardStepsAux ss car ss.length fwd.1 fwd.2 0

/-- LapTimeCalculator.calculate_lap_time (lap_time_calculator.py lines 21-90):
sector times 2 * length / (entry + exit) summed by the final loop.  The
matplotlib plotting block is I/O and has no effect on the returned value. -/
noncomputable def calculate_lap_time (rl : RacingLine) (car : Car)
    (starting_velocity : ℝ) : ℝ :=
  let ss := rl.sectors
  let vels := lapVelocities rl car starting_velocity
  let sector_times := (List.range ss.length).map (fun idx =>
    2 * (ss.getD idx default).length / (vels.1.getD idx 0 + vels.2.getD idx 0))
  sector_times.foldl (· + ·) 0

/-- A Python numeric value flowing through get_sector_entry_velocity: float
arithmetic stays float, but a negative float raised to the power 0.5 becomes
a complex number and every subsequent operation stays complex. -/
inductive PyNum where
  | float (x : ℝ)
  | complex (z : ℂ)

/-- Python addition on mixed float/complex operands. -/
noncomputable def PyNum.add : PyNum → PyNum → PyNum
  | .float a, .float b => .float (a + b)
  | .float a, .complex z => .complex (a + z)
  | .complex z, .float b => .complex (z + b)
  | .complex z, .complex w => .complex (z + w)

/-- Python multiplication on mixed float/complex operands. -/
noncomputable def PyNum.mul : PyNum → PyNum → PyNum
  | .float a, .float b => .float (a * b)
  | .float a, .complex z => .complex (a * z)
  | .complex z, .float b => .complex (z * b)
  | .complex z, .complex w => .complex (z * w)

/-- Python division on mixed float/complex operands. -/
noncomputable def PyNum.div : PyNum → PyNum → PyNum
  | .float a, .float b => .float (a / b)
  | .float a, .complex z => .complex (a / z)
  | .complex z, .float b => .complex (z / b)
  | .complex z, .complex w => .complex (z / w)

/-- Python ** 0.5: a nonnegative float yields its real square root, a negative
float is promoted to complex and raised by the principal branch, and a complex
operand stays complex. -/
noncomputable def PyNum.powHalf : PyNum → PyNum
  | .float x =>
    if 0 ≤ x then .float (Real.sqrt x)
    else .complex (Complex.cpow (x : ℂ) ((2 : ℂ)⁻¹))
  | .complex z => .complex (Complex.cpow z ((2 : ℂ)⁻¹))

/-- Python comparison of a numeric value with a float: comparing a complex
number raises TypeError. -/
noncomputable def PyNum.gtF : PyNum → ℝ → Except PyErr Bool
  | .float a, b => Except.ok (if a > b then true else false)
  | .complex _, _ => Except.error PyErr.typeError

/-- The underlying real of a PyNum float (junk real part for complex). -/
noncomputable def PyNum.val : PyNum → ℝ
  | .float x => x
  | .complex z => z.re

/-- LapTimeCalculator.get_sector_entry_velocity with Python float/complex
semantics made explicit: when the centripetal demand exceeds the total
available force the radicand is negative, the braking force becomes complex,
the entry velocity stays complex, and the final comparison against
max_velocity raises TypeError. -/
noncomputable def get_sector_entry_velocity_py (s : Sector) (car : Car)
    (exit_velocity : ℝ) : Except PyErr ℝ :=
  let total_force := car.friction * car.mass * GRAV_ACCELERATION
  let centripetal_force : ℝ :=
    match s.radius with
    | none => 0
    | some r => car.mass * exit_velocity ^ 2 / r
  let braking_force := PyNum.powHalf (.float (total_force ^ 2 - centripetal_force ^ 2))
  let drag_force :=
    car.drag_coefficient * 0.5 * AIR_DENSITY * exit_velocity ^ 2 * car.frontal_area
  let decelerative_force := braking_force.add (.float drag_force)
  let delta_velocity :=
    ((PyNum.float (2 * s.length)).mul decelerative_force).div (.float car.mass)
  let entry_velocity := PyNum.powHalf ((PyNum.float (exit_velocity ^ 2)).add delta_velocity)
  match entry_velocity.gtF car.max_velocity with
  | Except.error e => Except.error e
  | Except.ok true => Except.ok car.max_velocity
  | Except.ok false => Except.ok entry_velocity.val

/-- A candidate of the evolutionary strategy (evolutionary_strategy.py lines
15-47): a weight vector and the lazily assigned lap time (None before the
first evaluation).  The fitness property returns the stored lap time. -/
structure Candidate where
  weights : List ℝ
  lap_time : Option ℝ

/-- The fields of EvolutionaryStrategy that the embedded operations read. -/
structure EvolutionaryStrategy where
  left_limit : RacingLine
  right_limit : RacingLine
  car : Car
  starting_velocity : ℝ

/-- The recomputation branch of EvolutionaryStrategy.calculate_fitness:
interpolate the line from the weights and run the lap-time simulation,
storing the result on the candidate. -/
noncomputable def recomputeFitness (es : EvolutionaryStrategy) (c : Candidate) :
    Except PyErr (ℝ × Candidate) :=
  match generate_from_weights c.weights es.left_limit es.right_limit with
  | Except.error e => Except.error e
  | Except.ok line =>
    let lap := calculate_lap_time line es.car es.starting_velocity
    Except.ok (lap, { c with lap_time := some lap })

/-- EvolutionaryStrategy.calculate_fitness (evolutionary_strategy.py lines
152-169).  The guard is the Python truthiness test if candidate.fitness:,
which is falsy both for None and for a stored lap time of exactly 0.0, so a
candidate scored 0.0 is re-evaluated. -/
noncomputable def calculate_fitness (es : EvolutionaryStrategy) (c : Candidate) :
    Except PyErr (ℝ × Candidate) :=
  match c.lap_time with
  | some t => if t = 0 then recomputeFitness es c else Except.ok (t, c)
  | none => recomputeFitness es c

/-- The probability vector computed by EvolutionaryStrategy.perform_selection
(lines 183-188): normalised lap-time shares, complemented, renormalised. -/
noncomputable def selectionProbabilities (fits : List ℝ) : List ℝ :=
  let population_fitness := fits.sum
  let probabilities := fits.map (fun f => f / population_fitness)
  let complemented := probabilities.map (fun p => 1 - p)
  complemented.map (fun q => q / complemented.sum)

/-- EvolutionaryStrategy.perform_selection (evolutionary_strategy.py lines
171-195): score every candidate, build the probability vector, then print the
best fitness - min() of an empty sequence raises ValueError for an empty
population.  The final np.random.choice sampling is randomised and outside
the embedding; callers here observe the probability vector and the scored
population. -/
noncomputable def perform_selection (es : EvolutionaryStrategy)
    (population : List Candidate) : Except PyErr (List ℝ × List Candidate) :=
  match population.mapM (fun c => (calculate_fitness es c).map Prod.snd) with
  | Except.error e => Except.error e
  | Except.ok scored =>
    let fits := scored.map (fun c => c.lap_time.getD 0)
    let probabilities := selectionProbabilities fits
    match fits with
    | [] => Except.error PyErr.valueError
    | _ :: _ => Except.ok (probabilities, scored)

/-- The value of get_sector_max_velocity on any sector of infinite radius:
mass/radius is 0.0, so only the drag term remains in the denominator. -/
noncomputable def straightSectorSpeed (car : Car) : ℝ :=
  let total_force := car.friction * car.mass * GRAV_ACCELERATION
  let drag := car.drag_coefficient * 0.5 * AIR_DENSITY * car.frontal_area
  let denom := ((0 : ℝ) ^ 2 + drag ^ 2) ^ ((1 : ℝ) / 4)
  let velocity := Real.sqrt total_force / denom
  if velocity > car.max_velocity then car.max_velocity else velocity

/-! Concrete inputs used to evaluate the embedded code. -/

/-- Test vertex 0: on the ray through (3,4,0), close to the origin. -/
noncomputable def p0 : Point := ⟨3 / 20, 1 / 5, 0⟩

/-- Test vertex 1: midpoint of p0 and the origin. -/
noncomputable def p1 : Point := ⟨3 / 40, 1 / 10, 0⟩

/-- Test vertex 2: the origin. -/
noncomputable def p2 : Point := ⟨0, 0, 0⟩

/-- Test vertex 3. -/
noncomputable def p3 : Point := ⟨6, 0, 0⟩

/-- Test vertex 4. -/
noncomputable def p4 : Point := ⟨3, 4, 0⟩

/-- Test vertex 5: on the segment from p4 back towards p0. -/
noncomputable def p5 : Point := ⟨3 / 2, 2, 0⟩

/-- A six-vertex closed test line: two short straight sectors around the
origin and around p4, and one curved sector through (6,0,0). -/
noncomputable def testLine : RacingLine := ⟨[p0, p1, p2, p3, p4, p5]⟩

/-- A test car chosen so that every velocity arising on testLine is either
rational or the square root of a rational: max velocity 6, total friction
force 1000 N, drag term 24, enormous engine power so the acceleration is
always capped by the velocity-band limit. -/
noncomputable def testCar : Car :=
  ⟨6, 2, 50 / 49, 100, 4800 / 119, 1, 10 ^ 9, 10 ^ 9⟩

/-- First sector of testLine (straight, length 1/4). -/
noncomputable def testS0 : Sector := ⟨p0, p1, p2⟩

/-- Second sector of testLine (curved, radius 25/8, length 11). -/
noncomputable def testS1 : Sector := ⟨p2, p3, p4⟩

/-- Third sector of testLine (straight, length 19/4). -/
noncomputable def testS2 : Sector := ⟨p4, p5, p0⟩

/-- Four colinear vertices on the x axis. -/
noncomputable def line4 : RacingLine :=
  ⟨[⟨0, 0, 0⟩, ⟨1, 0, 0⟩, ⟨2, 0, 0⟩, ⟨3, 0, 0⟩]⟩

/-- Five colinear vertices on the x axis. -/
noncomputable def line5 : RacingLine :=
  ⟨[⟨0, 0, 0⟩, ⟨1, 0, 0⟩, ⟨2, 0, 0⟩, ⟨3, 0, 0⟩, ⟨4, 0, 0⟩]⟩

/-- A straight sector with three distinct colinear points. -/
noncomputable def sC : Sector := ⟨⟨0, 0, 0⟩, ⟨1, 0, 0⟩, ⟨2, 0, 0⟩⟩

/-- A car whose friction-limited straight-line speed (1 m/s) is far below its
max velocity (100 m/s): total friction force 1 N, drag term 1. -/
noncomputable def carCEX : Car := ⟨100, 10, 1, 5 / 49, 200 / 119, 1, 1000, 1000⟩

/-- A car with max velocity 50 m/s, below the 84 m/s band boundary of
get_max_acceleration. -/
noncomputable def carC7 : Car := ⟨50, 31 / 2, 8 / 5, 740, 1, 3 / 2, 100000, 800000⟩

/-- The default Formula 1 car of car.py. -/
noncomputable def carF1 : Car := ⟨100, 31 / 2, 8 / 5, 740, 1, 3 / 2, 100000, 800000⟩

/-- A right-angle sector: radius sqrt(2)/2. -/
noncomputable def s2cex : Sector := ⟨⟨0, 0, 0⟩, ⟨1, 0, 0⟩, ⟨1, 1, 0⟩⟩

/-- A light car for the infeasible-corner scenario: total friction force
9.8 N, so a 10 m/s exit on the tight right-angle sector is far beyond the
available centripetal force. -/
noncomputable def carC2 : Car := ⟨100, 31 / 2, 1, 1, 1, 1, 1000, 1000⟩

/-- A strategy whose two boundary lines are both testLine, so every generated
candidate line coincides with testLine. -/
noncomputable def esTest : EvolutionaryStrategy := ⟨testLine, testLine, testCar, 6⟩

/-- A candidate that has already been scored with lap time exactly 0.0. -/
noncomputable def candZero : Candidate := ⟨List.replicate 6 0, some 0⟩

/-! Generic helper lemmas. -/

theorem getD_map_lt (f : ℝ → ℝ) (l : List ℝ) (i : ℕ) (h : i < l.length) :
    (l.map f).getD i 0 = f (l.getD i 0) := by
  induction l generalizing i with
  | nil => simp at h
  | cons a t ih =>
    cases i with
    | zero => simp
    | succ j => simpa using ih j (by simpa using h)

theorem getD_mem (l : List ℝ) (i : ℕ) (h : i < l.length) : l.getD i 0 ∈ l := by
  induction l generalizing i with
  | nil => simp at h
  | cons a t ih =>
    cases i with
    | zero => simp
    | succ j => exact List.mem_cons_of_mem a (ih j (by simpa using h))

theorem getD_nonneg (l : List ℝ) (hl : ∀ a ∈ l, 0 ≤ a) (i : ℕ) : 0 ≤ l.getD i 0 := by
  induction l generalizing i with
  | nil => simp [List.getD]
  | cons a t ih =>
    cases i with
    | zero => exact hl a (by simp)
    | succ j =>
      exact ih (fun b hb => hl b (List.mem_cons_of_mem a hb)) j

theorem getD_set_self (l : List ℝ) (j : ℕ) (v : ℝ) (h : j < l.length) :
    (l.set j v).getD j 0 = v := by
  induction l generalizing j with
  | nil => simp at h
  | cons a t ih =>
    cases j with
    | zero => simp
    | succ k => simpa using ih k (by simpa using h)

theorem getD_set_other (l : List ℝ) (i j : ℕ) (v : ℝ) (h : i ≠ j) :
    (l.set j v).getD i 0 = l.getD i 0 := by
  induction l generalizing i j with
  | nil => simp
  | cons a t ih =>
    cases j with
    | zero =>
      cases i with
      | zero => exact absurd rfl h
      | succ k => simp
    | succ m =>
      cases i with
      | zero => simp
      | succ k => simpa using ih k m (fun hk => h (by simp [hk]))

theorem forall_mem_set (l : List ℝ) (j : ℕ) (v : ℝ) (hl : ∀ a ∈ l, 0 ≤ a)
    (hv : 0 ≤ v) : ∀ a ∈ l.set j v, 0 ≤ a := by
  induction l generalizing j with
  | nil => simp
  | cons a t ih =>
    cases j with
    | zero =>
      intro b hb
      rcases List.mem_cons.mp hb with hb | hb
      · exact hb ▸ hv
      · exact hl b (List.mem_cons_of_mem a hb)
    | succ m =>
      intro b hb
      rcases List.mem_cons.mp hb with hb | hb
      · exact hb ▸ hl a (by simp)
      · exact ih m (fun c hc => hl c (List.mem_cons_of_mem a hc)) b hb

theorem sum_map_div (l : List ℝ) (c : ℝ) :
    (l.map (fun f => f / c)).sum = l.sum / c := by
  induction l with
  | nil => simp
  | cons a t ih => simp [ih, add_div]

theorem sum_map_one_sub (l : List ℝ) :
    (l.map (fun p => 1 - p)).sum = (l.length : ℝ) - l.sum := by
  induction l with
  | nil => simp
  | cons a t ih =>
    simp only [List.map_cons, List.sum_cons, ih, List.length_cons]
    push_cast
    ring

theorem foldl_add_eq_sum (l : List ℝ) (a : ℝ) : l.foldl (· + ·) a = a + l.sum := by
  induction l generalizing a with
  | nil => simp
  | cons b t ih => simp [ih, add_assoc]

theorem sum_map_range_eq (n : ℕ) (f : ℕ → ℝ) :
    ((List.range n).map f).sum = ∑ i in Finset.range n, f i := by
  induction n with
  | zero => simp
  | succ m ih => simp [List.range_succ, Finset.sum_range_succ, ih]

theorem len_eval (p : Point) (r : ℝ) (hr : 0 ≤ r)
    (h : p.x ^ 2 + p.y ^ 2 + p.z ^ 2 = r ^ 2) : p.len = r := by
  rw [Point.len, h, Real.sqrt_sq hr]

theorem fourth_root_of_sq (a : ℝ) (ha : 0 ≤ a) :
    ((a ^ 2 : ℝ)) ^ ((1 : ℝ) / 4) = Real.sqrt a := by
  rw [Real.sqrt_eq_rpow]
  rw [show (a : ℝ) ^ 2 = a ^ ((2 : ℕ) : ℝ) by rw [Real.rpow_natCast]]
  rw [← Real.rpow_mul ha]
  norm_num

theorem sqrt_div_sqrt (a b : ℝ) (ha : 0 ≤ a) :
    Real.sqrt a / Real.sqrt b = Real.sqrt (a / b) := by
  rw [Real.sqrt_div ha]

/-! Evaluation helpers for Sector.radius. -/

theorem radius_eval (s : Sector) (a b c cv sv : ℝ)
    (hA : (s.end_.sub s.start).len = a)
    (hB : (s.end_.sub s.mid).len = b)
    (hC : (s.mid.sub s.start).len = c)
    (hcos : (c ^ 2 + b ^ 2 - a ^ 2) / (2 * b * c) = cv)
    (h1 : cv ≤ 1) (h2 : -1 ≤ cv) (hne1 : cv ≠ 1) (hne2 : cv ≠ -1)
    (hsv : 0 ≤ sv) (hs : sv ^ 2 = 1 - cv ^ 2) :
    s.radius = some (a / (2 * sv)) := by
  simp only [Sector.radius]
  rw [hA, hB, hC, hcos]
  rw [if_neg (not_lt.mpr h1), if_neg (not_lt.mpr h2)]
  rw [if_neg ?hcond]
  case hcond =>
    rw [Real.arccos_eq_zero, Real.arccos_eq_pi]
    push_neg
    exact ⟨lt_of_le_of_ne h1 hne1, lt_of_le_of_ne h2 (fun hx => hne2 hx.symm)⟩
  rw [Real.sin_pi_sub, Real.sin_arccos, ← hs, Real.sqrt_sq hsv]

theorem radius_eval_degenerate (s : Sector) (a b c : ℝ)
    (hA : (s.end_.sub s.start).len = a)
    (hB : (s.end_.sub s.mid).len = b)
    (hC : (s.mid.sub s.start).len = c)
    (hcos : (c ^ 2 + b ^ 2 - a ^ 2) / (2 * b * c) = 1 ∨
      (c ^ 2 + b ^ 2 - a ^ 2) / (2 * b * c) = -1) :
    s.radius = none := by
  simp only [Sector.radius]
  rw [hA, hB, hC]
  rcases hcos with h | h
  · rw [h]
    norm_num [Real.arccos_one]
  · rw [h]
    norm_num [Real.arccos_neg_one]

/-! Geometry of the concrete test sectors. -/

theorem testS0_len_a : (testS0.end_.sub testS0.start).len = 1 / 4 :=
  len_eval _ _ (by norm_num) (by norm_num [testS0, p0, p2, Point.sub])

theorem testS0_len_b : (testS0.end_.sub testS0.mid).len = 1 / 8 :=
  len_eval _ _ (by norm_num) (by norm_num [testS0, p1, p2, Point.sub])

theorem testS0_len_c : (testS0.mid.sub testS0.start).len = 1 / 8 :=
  len_eval _ _ (by norm_num) (by norm_num [testS0, p0, p1, Point.sub])

theorem testS0_radius : testS0.radius = none :=
  radius_eval_degenerate _ _ _ _ testS0_len_a testS0_len_b testS0_len_c
    (Or.inr (by norm_num))

theorem testS0_length : testS0.length = 1 / 4 := by
  rw [Sector.length, testS0_len_c, testS0_len_b]
  norm_num

theorem testS1_len_a : (testS1.end_.sub testS1.start).len = 5 :=
  len_eval _ _ (by norm_num) (by norm_num [testS1, p2, p4, Point.sub])

theorem testS1_len_b : (testS1.end_.sub testS1.mid).len = 5 :=
  len_eval _ _ (by norm_num) (by norm_num [testS1, p3, p4, Point.sub])

theorem testS1_len_c : (testS1.mid.sub testS1.start).len = 6 :=
  len_eval _ _ (by norm_num) (by norm_num [testS1, p2, p3, Point.sub])

theorem testS1_radius : testS1.radius = some (25 / 8) := by
  have h := radius_eval testS1 5 5 6 (3 / 5) (4 / 5) testS1_len_a testS1_len_b
    testS1_len_c (by norm_num) (by norm_num) (by norm_num) (by norm_num)
    (by norm_num) (by norm_num) (by norm_num)
  rw [h]
  norm_num

theorem testS1_length : testS1.length = 11 := by
  rw [Sector.length, testS1_len_c, testS1_len_b]
  norm_num

theorem testS2_len_a : (testS2.end_.sub testS2.start).len = 19 / 4 :=
  len_eval _ _ (by norm_num) (by norm_num [testS2, p0, p4, Point.sub])

theorem testS2_len_b : (testS2.end_.sub testS2.mid).len = 9 / 4 :=
  len_eval _ _ (by norm_num) (by norm_num [testS2, p0, p5, Point.sub])

theorem testS2_len_c : (testS2.mid.sub testS2.start).len = 5 / 2 :=
  len_eval _ _ (by norm_num) (by norm_num [testS2, p4, p5, Point.sub])

theorem testS2_radius : testS2.radius = none :=
  radius_eval_degenerate _ _ _ _ testS2_len_a testS2_len_b testS2_len_c
    (Or.inr (by norm_num))

theorem testS2_length : testS2.length = 19 / 4 := by
  rw [Sector.length, testS2_len_c, testS2_len_b]
  norm_num

theorem testLine_sectors : testLine.sectors = [testS0, testS1, testS2] := rfl

theorem sC_radius : sC.radius = none :=
  radius_eval_degenerate _ 2 1 1
    (len_eval _ _ (by norm_num) (by norm_num [sC, Point.sub]))
    (len_eval _ _ (by norm_num) (by norm_num [sC, Point.sub]))
    (len_eval _ _ (by norm_num) (by norm_num [sC, Point.sub]))
    (Or.inr (by norm_num))

theorem s2cex_len_a : (s2cex.end_.sub s2cex.start).len = Real.sqrt 2 :=
  len_eval _ _ (Real.sqrt_nonneg 2)
    (by norm_num [s2cex, Point.sub, Real.sq_sqrt])

theorem s2cex_radius : s2cex.radius = some (Real.sqrt 2 / 2) := by
  have h := radius_eval s2cex (Real.sqrt 2) 1 1 0 1 s2cex_len_a
    (len_eval _ _ (by norm_num) (by norm_num [s2cex, Point.sub]))
    (len_eval _ _ (by norm_num) (by norm_num [s2cex, Point.sub]))
    (by rw [Real.sq_sqrt (by norm_num : (0:ℝ) ≤ 2)]; norm_num)
    (by norm_num) (by norm_num) (by norm_num) (by norm_num) (by norm_num) (by norm_num)
  rw [h]
  norm_num

theorem s2cex_length : s2cex.length = 2 := by
  rw [Sector.length]
  rw [len_eval (s2cex.mid.sub s2cex.start) 1 (by norm_num) (by norm_num [s2cex, Point.sub])]
  rw [len_eval (s2cex.end_.sub s2cex.mid) 1 (by norm_num) (by norm_num [s2cex, Point.sub])]
  norm_num

/-! Evaluation of the velocity functions on the test car. -/

theorem max_velocity_eval_straight (s : Sector) (car : Car) (h : s.radius = none) :
    get_sector_max_velocity s car = straightSectorSpeed car := by
  simp only [get_sector_max_velocity, straightSectorSpeed, h]

theorem testCar_total_force :
    testCar.friction * testCar.mass * GRAV_ACCELERATION = 1000 := by
  norm_num [testCar, GRAV_ACCELERATION]

theorem testCar_drag_term :
    testCar.drag_coefficient * 0.5 * AIR_DENSITY * testCar.frontal_area = 24 := by
  norm_num [testCar, AIR_DENSITY]

theorem straightSpeed_testCar : straightSectorSpeed testCar = 6 := by
  simp only [straightSectorSpeed]
  rw [testCar_total_force, testCar_drag_term]
  rw [show ((0 : ℝ) ^ 2 + (24 : ℝ) ^ 2) = (24 : ℝ) ^ 2 by norm_num]
  rw [fourth_root_of_sq 24 (by norm_num)]
  rw [← Real.sqrt_div (by norm_num : (0:ℝ) ≤ 1000) 24]
  rw [show testCar.max_velocity = (6 : ℝ) by norm_num [testCar]]
  rw [if_pos (by rw [gt_iff_lt, Real.lt_sqrt (by norm_num)]; norm_num)]

theorem M_testS0 : get_sector_max_velocity testS0 testCar = 6 := by
  rw [max_velocity_eval_straight _ _ testS0_radius, straightSpeed_testCar]

theorem M_testS2 : get_sector_max_velocity testS2 testCar = 6 := by
  rw [max_velocity_eval_straight _ _ testS2_radius, straightSpeed_testCar]

theorem M_testS1 : get_sector_max_velocity testS1 testCar = 5 := by
  simp only [get_sector_max_velocity, testS1_radius]
  rw [testCar_total_force, testCar_drag_term]
  rw [show testCar.mass / (25 / 8 : ℝ) = 32 by norm_num [testCar]]
  rw [show ((32 : ℝ) ^ 2 + (24 : ℝ) ^ 2) = (40 : ℝ) ^ 2 by norm_num]
  rw [fourth_root_of_sq 40 (by norm_num)]
  rw [← Real.sqrt_div (by norm_num : (0:ℝ) ≤ 1000) 40]
  rw [show (1000 : ℝ) / 40 = (5 : ℝ) ^ 2 by norm_num]
  rw [Real.sqrt_sq (by norm_num : (0:ℝ) ≤ 5)]
  rw [if_neg (by norm_num [testCar])]

theorem exitvel_eval_capped (s : Sector) (car : Car) (v lenv dF P macc X : ℝ)
    (hlen : s.length = lenv)
    (hv : v ≠ 0)
    (hdF : car.drag_coefficient * 0.5 * AIR_DENSITY * v ^ 2 * car.frontal_area = dF)
    (hP : car.get_engine_power v = P)
    (hmacc : car.get_max_acceleration v = macc)
    (hcap : (P / v - dF) / car.mass > macc)
    (hX : v ^ 2 + 2 * macc * lenv = X) :
    get_sector_exit_velocity s car v =
      if Real.sqrt X > car.max_velocity then car.max_velocity else Real.sqrt X := by
  simp only [get_sector_exit_velocity]
  rw [hlen, hdF, hP, hmacc, if_neg hv, if_pos hcap, hX]

theorem entryvel_eval_straight (s : Sector) (car : Car) (v lenv tf dF X : ℝ)
    (hrad : s.radius = none)
    (hlen : s.length = lenv)
    (htf : car.friction * car.mass * GRAV_ACCELERATION = tf) (htf0 : 0 ≤ tf)
    (hdF : car.drag_coefficient * 0.5 * AIR_DENSITY * v ^ 2 * car.frontal_area = dF)
    (hX : v ^ 2 + 2 * lenv * (tf + dF) / car.mass = X) :
    get_sector_entry_velocity s car v =
      if Real.sqrt X > car.max_velocity then car.max_velocity else Real.sqrt X := by
  simp only [get_sector_entry_velocity, hrad]
  rw [hlen, htf, hdF]
  rw [show tf ^ 2 - (0 : ℝ) ^ 2 = tf ^ 2 by ring, Real.sqrt_sq htf0, hX]

theorem engine_testCar_6 : testCar.get_engine_power 6 = 10 ^ 9 := by
  simp only [Car.get_engine_power]
  rw [if_pos (by norm_num : (0:ℝ) ≤ 6 ∧ (6:ℝ) < 10)]
  norm_num [testCar]

theorem engine_testCar_5 : testCar.get_engine_power 5 = 10 ^ 9 := by
  simp only [Car.get_engine_power]
  rw [if_pos (by norm_num : (0:ℝ) ≤ 5 ∧ (5:ℝ) < 10)]
  norm_num [testCar]

theorem maxacc_testCar_6 : testCar.get_max_acceleration 6 = 3 / 2 := by
  simp only [Car.get_max_acceleration]
  rw [if_pos (by norm_num : (0:ℝ) ≤ 6 ∧ (6:ℝ) < 28)]
  norm_num [testCar]

theorem maxacc_testCar_5 : testCar.get_max_acceleration 5 = 3 / 2 := by
  simp only [Car.get_max_acceleration]
  rw [if_pos (by norm_num : (0:ℝ) ≤ 5 ∧ (5:ℝ) < 28)]
  norm_num [testCar]

theorem xv_testS0_6 : get_sector_exit_velocity testS0 testCar 6 = 6 := by
  rw [exitvel_eval_capped testS0 testCar 6 (1/4) 864 (10 ^ 9) (3/2) (147/4)
    testS0_length (by norm_num) (by norm_num [testCar, AIR_DENSITY]) engine_testCar_6
    maxacc_testCar_6 (by norm_num [testCar]) (by norm_num)]
  rw [show testCar.max_velocity = (6 : ℝ) by norm_num [testCar]]
  rw [if_pos (by rw [gt_iff_lt, Real.lt_sqrt (by norm_num)]; norm_num)]

theorem xv_testS1_6 : get_sector_exit_velocity testS1 testCar 6 = 6 := by
  rw [exitvel_eval_capped testS1 testCar 6 11 864 (10 ^ 9) (3/2) 69
    testS1_length (by norm_num) (by norm_num [testCar, AIR_DENSITY]) engine_testCar_6
    maxacc_testCar_6 (by norm_num [testCar]) (by norm_num)]
  rw [show testCar.max_velocity = (6 : ℝ) by norm_num [testCar]]
  rw [if_pos (by rw [gt_iff_lt, Real.lt_sqrt (by norm_num)]; norm_num)]

theorem xv_testS2_5 : get_sector_exit_velocity testS2 testCar 5 = 6 := by
  rw [exitvel_eval_capped testS2 testCar 5 (19/4) 600 (10 ^ 9) (3/2) (157/4)
    testS2_length (by norm_num) (by norm_num [testCar, AIR_DENSITY]) engine_testCar_5
    maxacc_testCar_5 (by norm_num [testCar]) (by norm_num)]
  rw [show testCar.max_velocity = (6 : ℝ) by norm_num [testCar]]
  rw [if_pos (by rw [gt_iff_lt, Real.lt_sqrt (by norm_num)]; norm_num)]

theorem sqrt33_le_6 : Real.sqrt 33 ≤ 6 :=
  (Real.sqrt_le_left (by norm_num)).mpr (by norm_num)

theorem sqrt33_lt_6 : Real.sqrt 33 < 6 :=
  (Real.sqrt_lt' (by norm_num)).mpr (by norm_num)

theorem ev_testS0_5 : get_sector_entry_velocity testS0 testCar 5 = Real.sqrt 33 := by
  rw [entryvel_eval_straight testS0 testCar 5 (1/4) 1000 600 33
    testS0_radius testS0_length testCar_total_force (by norm_num)
    (by norm_num [testCar, AIR_DENSITY]) (by norm_num [testCar])]
  have hm : testCar.max_velocity = (6 : ℝ) := by norm_num [testCar]
  rw [if_neg (by rw [gt_iff_lt, hm]; exact not_lt.mpr sqrt33_le_6)]

/-! Evaluation of the two passes on the test line. -/

theorem fwd_testLine :
    forwardPass [testS0, testS1, testS2] testCar 6 = ([6, 5, 5], [6, 5, 6]) := by
  norm_num [forwardPass, xv_testS0_6, M_testS0, xv_testS1_6, M_testS1, xv_testS2_5, M_testS2]

theorem bwd_testLine :
    backwardStepsAux [testS0, testS1, testS2] testCar 3 [6, 5, 5] [6, 5, 6] 0 =
      ([Real.sqrt 33, 5, 5], [5, 5, 6]) := by
  norm_num [backwardStepsAux, ev_testS0_5, sqrt33_lt_6]

theorem lapVelocities_testLine :
    lapVelocities testLine testCar 6 = ([Real.sqrt 33, 5, 5], [5, 5, 6]) := by
  simp only [lapVelocities, testLine_sectors]
  rw [show ([testS0, testS1, testS2] : List Sector).length = 3 from rfl]
  rw [fwd_testLine]
  exact bwd_testLine

theorem lapTime_testLine :
    calculate_lap_time testLine testCar 6 = 1 / (2 * (Real.sqrt 33 + 5)) + 337 / 110 := by
  simp only [calculate_lap_time, testLine_sectors, lapVelocities_testLine]
  norm_num [testS0_length, testS1_length, testS2_length, List.range_succ]
  have hne : Real.sqrt 33 + 5 ≠ 0 := by positivity
  field_simp
  ring

theorem lapTime_testLine_pos : 0 < calculate_lap_time testLine testCar 6 := by
  rw [lapTime_testLine]
  positivity

/-! Claim theorems. -/

theorem gen_weights_zero :
    generate_from_weights (List.replicate 6 0) testLine testLine = Except.ok testLine := by
  simp only [generate_from_weights, testLine]
  norm_num [genVerts, clamp, min_def, max_def, Point.sub, Point.add, Point.smul,
    p0, p1, p2, p3, p4, p5, List.range_succ]

/-- Claim C10 counterexample: on the six-vertex test line with the test car and
starting velocity 6, after both passes the final exit velocity of the last
sector (index 2) is 6 while the final entry velocity of sector (2+1) mod 3 = 0
is sqrt 33 < 6, so the wraparound pair violates the claimed invariant. -/
theorem claim10_counterexample :
    testLine.sectors.length = 3 ∧
    (lapVelocities testLine testCar 6).1.getD ((2 + 1) % 3) 0 <
      (lapVelocities testLine testCar 6).2.getD 2 0 := by
  refine ⟨rfl, ?_⟩
  rw [lapVelocities_testLine]
  simpa using sqrt33_lt_6

/-- Claim C1 (code bug): a candidate whose stored lap time is exactly 0.0 is
treated as unscored by calculate_fitness - the Python truthiness guard
if candidate.fitness is falsy at 0.0 - so the geometry interpolation and the
lap-time simulation run again and their (nonzero) result is returned and
stored, instead of the cached 0.0. -/
theorem claim1_fitness_zero_recomputed :
    calculate_fitness esTest candZero =
      Except.ok (calculate_lap_time testLine testCar 6,
        { weights := List.replicate 6 0, lap_time := some (calculate_lap_time testLine testCar 6) }) ∧
    calculate_lap_time testLine testCar 6 ≠ 0 := by
  refine ⟨?_, lapTime_testLine_pos.ne'⟩
  simp only [calculate_fitness, candZero, if_true]
  simp only [recomputeFitness, esTest, gen_weights_zero]

/-- Claim C9 (code bug): an empty racing line does yield length 0 and an empty
sector list, but perform_selection on an empty population raises ValueError
(min of an empty sequence) instead of returning a defined empty result. -/
theorem claim9_empty_inputs :
    RacingLine.length ⟨[]⟩ = 0 ∧ RacingLine.sectors ⟨[]⟩ = [] ∧
      perform_selection esTest [] = Except.error PyErr.valueError := by
  refine ⟨rfl, rfl, ?_⟩
  rfl

/-- Claim C3 (code bug): when the left boundary is strictly shorter than the
weight list and the right boundary, generate_from_weights silently truncates
to the left boundary length and returns a one-vertex racing line instead of
failing loudly. -/
theorem claim3_silent_truncation :
    (RacingLine.mk [Point.mk 0 0 0]).vertices.length ≠ ([1 / 2, 1 / 2] : List ℝ).length ∧
    generate_from_weights [1 / 2, 1 / 2] ⟨[⟨0, 0, 0⟩]⟩ ⟨[⟨2, 0, 0⟩, ⟨4, 0, 0⟩]⟩ =
      Except.ok ⟨[⟨1, 0, 0⟩]⟩ := by
  constructor
  · simp
  · simp only [generate_from_weights]
    norm_num [genVerts, clamp, min_def, max_def, Point.sub, Point.add, Point.smul,
      List.range_succ]

/-- Claim C2 (code bug): on a sector of radius sqrt(2)/2 at exit velocity
10 m/s with a car whose total friction force is 9.8 N, the braking-force
radicand is negative; the Python power operator then produces a complex
number which propagates to the final max-velocity comparison, where Python
raises TypeError - neither a defined sentinel nor an explicit infeasibility
error. -/
theorem claim2_infeasible_entry_raises_type_error :
    get_sector_entry_velocity_py s2cex carC2 10 = Except.error PyErr.typeError := by
  simp only [get_sector_entry_velocity_py, s2cex_radius]
  have hc : ¬ (0 ≤ (carC2.friction * carC2.mass * GRAV_ACCELERATION) ^ 2 -
      (carC2.mass * (10 : ℝ) ^ 2 / (Real.sqrt 2 / 2)) ^ 2) := by
    have h2 : ((Real.sqrt 2 / 2) : ℝ) ^ 2 = 1 / 2 := by
      rw [div_pow, Real.sq_sqrt (by norm_num : (0:ℝ) ≤ 2)]
      norm_num
    rw [div_pow, h2]
    norm_num [carC2, GRAV_ACCELERATION]
  simp only [PyNum.powHalf, if_neg hc, PyNum.add, PyNum.mul, PyNum.div, PyNum.gtF]

/-! Colinear sector geometry (claim C5). -/

theorem len_smul (p : Point) (c : ℝ) : (p.smul c).len = |c| * p.len := by
  simp only [Point.smul, Point.len]
  rw [show (p.x * c) ^ 2 + (p.y * c) ^ 2 + (p.z * c) ^ 2 =
      c ^ 2 * (p.x ^ 2 + p.y ^ 2 + p.z ^ 2) from by ring]
  rw [Real.sqrt_mul (sq_nonneg c), Real.sqrt_sq_eq_abs]

theorem len_pos (p : Point) (h : p ≠ Point.mk 0 0 0) : 0 < p.len := by
  rw [Point.len, Real.sqrt_pos]
  by_contra hc
  push_neg at hc
  have hx : p.x = 0 := by
    have h2 : p.x ^ 2 = 0 :=
      le_antisymm (by nlinarith [sq_nonneg p.y, sq_nonneg p.z]) (sq_nonneg _)
    exact pow_eq_zero_iff two_ne_zero |>.mp h2
  have hy : p.y = 0 := by
    have h2 : p.y ^ 2 = 0 :=
      le_antisymm (by nlinarith [sq_nonneg p.x, sq_nonneg p.z]) (sq_nonneg _)
    exact pow_eq_zero_iff two_ne_zero |>.mp h2
  have hz : p.z = 0 := by
    have h2 : p.z ^ 2 = 0 :=
      le_antisymm (by nlinarith [sq_nonneg p.x, sq_nonneg p.y]) (sq_nonneg _)
    exact pow_eq_zero_iff two_ne_zero |>.mp h2
  apply h
  cases p
  simp_all

/-- Claim C5 (amended): a sector with three distinct colinear points has
infinite radius, and its max cornering velocity is then the car-only quantity
straightSectorSpeed: the friction-limited straight-line speed clamped at the
max velocity.  It equals the max velocity exactly when that speed exceeds the
max velocity, which holds for the default car but not for every car. -/
theorem claim5_straight_sector_velocity (s : Sector) (t : ℝ)
    (hd : s.end_.sub s.start ≠ Point.mk 0 0 0) (ht0 : t ≠ 0) (ht1 : t ≠ 1)
    (hmid : s.mid = s.start.add ((s.end_.sub s.start).smul t)) :
    s.radius = none ∧
    ∀ car : Car, get_sector_max_velocity s car = straightSectorSpeed car := by
  have hms : s.mid.sub s.start = (s.end_.sub s.start).smul t := by
    rw [hmid]
    simp only [Point.sub, Point.add, Point.smul, Point.mk.injEq]
    refine ⟨by ring, by ring, by ring⟩
  have hes : s.end_.sub s.mid = (s.end_.sub s.start).smul (1 - t) := by
    rw [hmid]
    simp only [Point.sub, Point.add, Point.smul, Point.mk.injEq]
    refine ⟨by ring, by ring, by ring⟩
  have hL : 0 < (s.end_.sub s.start).len := len_pos _ hd
  have hB : (s.end_.sub s.mid).len = |1 - t| * (s.end_.sub s.start).len := by
    rw [hes, len_smul]
  have hC : (s.mid.sub s.start).len = |t| * (s.end_.sub s.start).len := by
    rw [hms, len_smul]
  have hu : t * (1 - t) ≠ 0 := by
    intro h
    rcases mul_eq_zero.mp h with h | h
    · exact ht0 h
    · exact ht1 (by linarith)
  have hnum : (|t| * (s.end_.sub s.start).len) ^ 2 +
      (|1 - t| * (s.end_.sub s.start).len) ^ 2 - (s.end_.sub s.start).len ^ 2 =
      -(2 * (t * (1 - t)) * (s.end_.sub s.start).len ^ 2) := by
    rw [mul_pow, mul_pow, sq_abs, sq_abs]
    ring
  have hden : 2 * (|1 - t| * (s.end_.sub s.start).len) * (|t| * (s.end_.sub s.start).len) =
      2 * |t * (1 - t)| * (s.end_.sub s.start).len ^ 2 := by
    rw [abs_mul]
    ring
  have hcos : ((|t| * (s.end_.sub s.start).len) ^ 2 +
      (|1 - t| * (s.end_.sub s.start).len) ^ 2 - (s.end_.sub s.start).len ^ 2) /
      (2 * (|1 - t| * (s.end_.sub s.start).len) * (|t| * (s.end_.sub s.start).len)) = 1 ∨
      ((|t| * (s.end_.sub s.start).len) ^ 2 +
      (|1 - t| * (s.end_.sub s.start).len) ^ 2 - (s.end_.sub s.start).len ^ 2) /
      (2 * (|1 - t| * (s.end_.sub s.start).len) * (|t| * (s.end_.sub s.start).len)) = -1 := by
    rw [hnum, hden]
    rcases lt_or_gt_of_ne hu with h | h
    · left
      rw [abs_of_neg h]
      rw [div_eq_one_iff_eq (ne_of_gt (by nlinarith [pow_pos hL 2]))]
      ring
    · right
      rw [abs_of_pos h]
      rw [div_eq_iff (ne_of_gt (by nlinarith [pow_pos hL 2]))]
      ring
  have hrad : s.radius = none :=
    radius_eval_degenerate s ((s.end_.sub s.start).len) (|1 - t| * (s.end_.sub s.start).len)
      (|t| * (s.end_.sub s.start).len) rfl hB hC hcos
  exact ⟨hrad, fun car => max_velocity_eval_straight s car hrad⟩

theorem straightSpeed_carCEX : straightSectorSpeed carCEX = 1 := by
  simp only [straightSectorSpeed]
  rw [show carCEX.friction * carCEX.mass * GRAV_ACCELERATION = 1 by
    norm_num [carCEX, GRAV_ACCELERATION]]
  rw [show carCEX.drag_coefficient * 0.5 * AIR_DENSITY * carCEX.frontal_area = 1 by
    norm_num [carCEX, AIR_DENSITY]]
  rw [show ((0 : ℝ) ^ 2 + (1 : ℝ) ^ 2) = (1 : ℝ) ^ 2 by norm_num]
  rw [fourth_root_of_sq 1 (by norm_num), Real.sqrt_one]
  rw [if_neg (by norm_num [carCEX])]
  norm_num

/-- Claim C5 counterexample: on a straight sector, for the car carCEX the max
cornering velocity is 1, not the max velocity 100; it is not independent of
friction and mass. -/
theorem claim5_counterexample :
    sC.radius = none ∧ get_sector_max_velocity sC carCEX ≠ carCEX.max_velocity := by
  refine ⟨sC_radius, ?_⟩
  rw [max_velocity_eval_straight _ _ sC_radius, straightSpeed_carCEX]
  norm_num [carCEX]

theorem claim5_witness :
    sC.radius = none ∧ get_sector_max_velocity sC carCEX = straightSectorSpeed carCEX := by
  have h := claim5_straight_sector_velocity sC (1 / 2)
    (by simp [sC, Point.sub, Point.mk.injEq])
    (by norm_num) (by norm_num)
    (by norm_num [sC, Point.add, Point.sub, Point.smul, Point.mk.injEq])
  exact ⟨h.1, h.2 carCEX⟩

/-! Sector partitioning (claim C6). -/

theorem sectors_of_ne_nil (rl : RacingLine) (hne : rl.vertices ≠ []) :
    rl.sectors = (List.range ((rl.vertices.length + 1) / 2)).map rl.get_sector := by
  rcases hv : rl.vertices with _ | ⟨v, vs⟩
  · exact absurd hv hne
  · unfold RacingLine.sectors
    rw [hv]

theorem get_sector_lt_eval (rl : RacingLine) (i : ℕ)
    (hi : i < rl.vertices.length / 2) :
    rl.get_sector i =
      ⟨rl.vertices.getD ((2 * i) % rl.vertices.length) default,
        rl.vertices.getD ((2 * i + 1) % rl.vertices.length) default,
        rl.vertices.getD ((2 * i + 2) % rl.vertices.length) default⟩ := by
  have hlt : 2 * i < rl.vertices.length := by omega
  simp only [RacingLine.get_sector]
  rw [if_neg (not_le.mpr hi)]
  rw [Nat.mod_eq_of_lt hlt]
  rw [Nat.mul_comm i 2]

theorem even_wrap_index (n i : ℕ) (he : n % 2 = 0) (hi : i < n / 2) :
    (2 * i + 2) % n = 2 * ((i + 1) % (n / 2)) % n := by
  obtain ⟨m, rfl⟩ : ∃ m, n = 2 * m := ⟨n / 2, by omega⟩
  rw [Nat.mul_div_cancel_left _ (by norm_num : 0 < 2)]
  rw [show 2 * i + 2 = 2 * (i + 1) from by ring]
  rw [Nat.mul_mod_mul_left]
  have hm : 0 < m := by omega
  have hx : (i + 1) % m < m := Nat.mod_lt _ hm
  generalize hg : (i + 1) % m = r at hx ⊢
  rw [Nat.mod_eq_of_lt (by omega : 2 * r < 2 * m)]

/-- Claim C6 (amended): for a racing line with an even number n >= 4 of
vertices, sectors yields exactly n/2 sectors; sector i consists of the
vertices at indices 2i, 2i+1, 2i+2 (mod n), so consecutive sector starts are
2 apart, and the last point of each sector is the first point of the next
sector cyclically.  For odd n the source instead yields (n+1)/2 sectors, the
last being a duplicate of sector 0 (see the counterexample). -/
theorem claim6_even_sector_partition (rl : RacingLine)
    (h3 : 3 ≤ rl.vertices.length) (he : rl.vertices.length % 2 = 0) :
    rl.sectors.length = rl.vertices.length / 2 ∧
    (∀ i < rl.vertices.length / 2,
      rl.get_sector i =
        ⟨rl.vertices.getD ((2 * i) % rl.vertices.length) default,
          rl.vertices.getD ((2 * i + 1) % rl.vertices.length) default,
          rl.vertices.getD ((2 * i + 2) % rl.vertices.length) default⟩) ∧
    (∀ i < rl.vertices.length / 2,
      (rl.get_sector i).end_ =
        (rl.get_sector ((i + 1) % (rl.vertices.length / 2))).start) := by
  have hne : rl.vertices ≠ [] := by
    intro h
    rw [h] at h3
    simp at h3
  refine ⟨?_, fun i hi => get_sector_lt_eval rl i hi, ?_⟩
  · rw [sectors_of_ne_nil rl hne, List.length_map, List.length_range]
    omega
  · intro i hi
    have hm : 0 < rl.vertices.length / 2 := by omega
    have hj : (i + 1) % (rl.vertices.length / 2) < rl.vertices.length / 2 :=
      Nat.mod_lt _ hm
    rw [get_sector_lt_eval rl i hi, get_sector_lt_eval rl _ hj]
    simp only []
    rw [even_wrap_index rl.vertices.length i he hi]

/-- Claim C6 counterexample: a five-vertex line yields 3 sectors, not
5 / 2 = 2 sectors as the claim states for every n >= 3. -/
theorem claim6_counterexample :
    line5.vertices.length = 5 ∧ line5.sectors.length = 3 ∧ (3 : ℕ) ≠ 5 / 2 := by
  refine ⟨rfl, rfl, by norm_num⟩

theorem claim6_witness : line4.sectors.length = line4.vertices.length / 2 :=
  (claim6_even_sector_partition line4 (by norm_num [line4]) (by norm_num [line4])).1

/-! Acceleration bands (claim C7). -/

/-- Claim C7 (amended): for every car whose max velocity is at least 84 m/s,
get_max_acceleration multiplies max_acceleration by 0.75, 1.0, 0.45, 0.3 on
the four bands [0,28), [28,56), [56,84), [84,max) and returns exactly 0 for
every velocity at or beyond the max velocity.  For a car with max velocity
below 84 the claim fails (see the counterexample). -/
theorem claim7_acceleration_bands (car : Car) (h84 : 84 ≤ car.max_velocity) (v : ℝ) :
    (0 ≤ v ∧ v < 28 → car.get_max_acceleration v = car.max_acceleration * 0.75) ∧
    (28 ≤ v ∧ v < 56 → car.get_max_acceleration v = car.max_acceleration * 1.0) ∧
    (56 ≤ v ∧ v < 84 → car.get_max_acceleration v = car.max_acceleration * 0.45) ∧
    (84 ≤ v ∧ v < car.max_velocity → car.get_max_acceleration v = car.max_acceleration * 0.3) ∧
    (car.max_velocity ≤ v → car.get_max_acceleration v = 0) := by
  refine ⟨?_, ?_, ?_, ?_, ?_⟩
  · intro hv
    simp only [Car.get_max_acceleration]
    rw [if_pos hv]
  · intro hv
    simp only [Car.get_max_acceleration]
    rw [if_neg (show ¬(0 ≤ v ∧ v < 28) from fun h => absurd h.2 (not_lt.mpr hv.1)),
      if_pos hv]
  · intro hv
    simp only [Car.get_max_acceleration]
    rw [if_neg (show ¬(0 ≤ v ∧ v < 28) from
        fun h => absurd h.2 (not_lt.mpr (by linarith [hv.1]))),
      if_neg (show ¬(28 ≤ v ∧ v < 56) from fun h => absurd h.2 (not_lt.mpr hv.1)),
      if_pos hv]
  · intro hv
    simp only [Car.get_max_acceleration]
    rw [if_neg (show ¬(0 ≤ v ∧ v < 28) from
        fun h => absurd h.2 (not_lt.mpr (by linarith [hv.1]))),
      if_neg (show ¬(28 ≤ v ∧ v < 56) from
        fun h => absurd h.2 (not_lt.mpr (by linarith [hv.1]))),
      if_neg (show ¬(56 ≤ v ∧ v < 84) from fun h => absurd h.2 (not_lt.mpr hv.1)),
      if_pos hv]
  · intro hv
    simp only [Car.get_max_acceleration]
    rw [if_neg (show ¬(0 ≤ v ∧ v < 28) from
        fun h => absurd h.2 (not_lt.mpr (by linarith))),
      if_neg (show ¬(28 ≤ v ∧ v < 56) from
        fun h => absurd h.2 (not_lt.mpr (by linarith))),
      if_neg (show ¬(56 ≤ v ∧ v < 84) from
        fun h => absurd h.2 (not_lt.mpr (by linarith))),
      if_neg (show ¬(84 ≤ v ∧ v < car.max_velocity) from
        fun h => absurd h.2 (not_lt.mpr hv))]
    norm_num

/-- Claim C7 counterexample: the car carC7 has max velocity 50, and at
velocity 60 >= 50 get_max_acceleration returns 15.5 * 0.45, not 0. -/
theorem claim7_counterexample :
    carC7.max_velocity ≤ 60 ∧ carC7.get_max_acceleration 60 ≠ 0 := by
  constructor
  · norm_num [carC7]
  · simp only [Car.get_max_acceleration]
    rw [if_neg (show ¬((0:ℝ) ≤ 60 ∧ (60:ℝ) < 28) by norm_num),
      if_neg (show ¬((28:ℝ) ≤ 60 ∧ (60:ℝ) < 56) by norm_num),
      if_pos (show (56:ℝ) ≤ 60 ∧ (60:ℝ) < 84 by norm_num)]
    norm_num [carC7]

theorem claim7_witness :
    carF1.get_max_acceleration 100 = 0 ∧
      carF1.get_max_acceleration 30 = carF1.max_acceleration * 1.0 := by
  have h := claim7_acceleration_bands carF1 (by norm_num [carF1])
  exact ⟨(h 100).2.2.2.2 (by norm_num [carF1]), (h 30).2.1 (by norm_num)⟩

/-! Selection probabilities (claim C8). -/

theorem probs_getD (qs : List ℝ) (D : ℝ) (k : ℕ) (hk : k < qs.length) :
    (qs.map (fun q => q / D)).getD k 0 = qs.getD k 0 / D := getD_map_lt _ qs k hk

theorem one_sub_getD (ps : List ℝ) (k : ℕ) (hk : k < ps.length) :
    (ps.map (fun p => 1 - p)).getD k 0 = 1 - ps.getD k 0 := getD_map_lt _ ps k hk

theorem div_getD (l : List ℝ) (c : ℝ) (k : ℕ) (hk : k < l.length) :
    (l.map (fun f => f / c)).getD k 0 = l.getD k 0 / c := getD_map_lt _ l k hk

/-- Claim C8: perform_selection computes each candidate probability as the
renormalised complement 1 - share of its normalised lap-time share, so with
all lap times positive, a strictly lower lap time gives a strictly higher
selection probability. -/
theorem claim8_lower_lap_time_higher_probability (fits : List ℝ)
    (hpos : ∀ t ∈ fits, 0 < t) (i j : ℕ) (hi : i < fits.length) (hj : j < fits.length)
    (hij : fits.getD i 0 < fits.getD j 0) :
    (selectionProbabilities fits).getD j 0 < (selectionProbabilities fits).getD i 0 := by
  have hne : fits ≠ [] := List.ne_nil_of_length_pos (by omega)
  have hS : 0 < fits.sum := List.sum_pos fits hpos hne
  have hij2 : i ≠ j := by
    intro h
    rw [h] at hij
    exact lt_irrefl _ hij
  have hn2 : 2 ≤ fits.length := by omega
  have hps_len : (fits.map (fun f => f / fits.sum)).length = fits.length :=
    List.length_map _ _
  have hps_sum : (fits.map (fun f => f / fits.sum)).sum = 1 := by
    rw [sum_map_div]
    exact div_self (ne_of_gt hS)
  have hqs_sum : ((fits.map (fun f => f / fits.sum)).map (fun p => 1 - p)).sum =
      (fits.length : ℝ) - 1 := by
    rw [sum_map_one_sub, hps_len, hps_sum]
  have hD : 0 < (fits.length : ℝ) - 1 := by
    have h2 : (2 : ℝ) ≤ (fits.length : ℝ) := by exact_mod_cast hn2
    linarith
  have hget : ∀ k, k < fits.length →
      (selectionProbabilities fits).getD k 0 =
        (1 - fits.getD k 0 / fits.sum) / ((fits.length : ℝ) - 1) := by
    intro k hk
    simp only [selectionProbabilities]
    rw [probs_getD, one_sub_getD, div_getD, hqs_sum]
    · simpa using hk
    · simpa using hk
    · simpa using hk
  rw [hget i hi, hget j hj]
  exact (div_lt_div_iff_of_pos_right hD).mpr
    (sub_lt_sub_left ((div_lt_div_iff_of_pos_right hS).mpr hij) 1)

theorem claim8_witness :
    (selectionProbabilities [10, 20]).getD 1 0 < (selectionProbabilities [10, 20]).getD 0 0 := by
  apply claim8_lower_lap_time_higher_probability [10, 20] ?_ 0 1 (by norm_num) (by norm_num) ?_
  · intro t ht
    rcases List.mem_cons.mp ht with h | h
    · rw [h]; norm_num
    · simp only [List.mem_singleton] at h
      rw [h]; norm_num
  · norm_num

/-! Structural properties of the two passes (claims C4 and C10). -/

theorem len_nonneg (p : Point) : 0 ≤ p.len := Real.sqrt_nonneg _

theorem sector_length_nonneg (s : Sector) : 0 ≤ s.length :=
  add_nonneg (len_nonneg _) (len_nonneg _)

theorem exitvel_nonneg (s : Sector) (car : Car) (v : ℝ) (hmax : 0 ≤ car.max_velocity) :
    0 ≤ get_sector_exit_velocity s car v := by
  simp only [get_sector_exit_velocity]
  split_ifs <;> first
    | exact hmax
    | exact Real.sqrt_nonneg _

theorem entryvel_nonneg (s : Sector) (car : Car) (v : ℝ) (hmax : 0 ≤ car.max_velocity) :
    0 ≤ get_sector_entry_velocity s car v := by
  simp only [get_sector_entry_velocity]
  split_ifs
  · exact hmax
  · exact Real.sqrt_nonneg _

theorem maxvel_nonneg (s : Sector) (car : Car) (hmax : 0 ≤ car.max_velocity) :
    0 ≤ get_sector_max_velocity s car := by
  simp only [get_sector_max_velocity]
  split_ifs
  · exact hmax
  · exact div_nonneg (Real.sqrt_nonneg _) (Real.rpow_nonneg (by positivity) _)

theorem forwardPass_lengths (ss : List Sector) (car : Car) (v0 : ℝ) :
    (forwardPass ss car v0).1.length = ss.length ∧
    (forwardPass ss car v0).2.length = ss.length := by
  induction ss generalizing v0 with
  | nil => simp [forwardPass]
  | cons s rest ih =>
    simp only [forwardPass, List.length_cons]
    exact ⟨by rw [(ih _).1], by rw [(ih _).2]⟩

theorem forwardPass_nonneg (ss : List Sector) (car : Car) (hmax : 0 ≤ car.max_velocity) :
    ∀ (v0 : ℝ), 0 ≤ v0 →
      (∀ a ∈ (forwardPass ss car v0).1, 0 ≤ a) ∧
      (∀ a ∈ (forwardPass ss car v0).2, 0 ≤ a) := by
  induction ss with
  | nil =>
    intro v0 h0
    simp [forwardPass]
  | cons s rest ih =>
    intro v0 h0
    simp only [forwardPass]
    have hx : 0 ≤ get_sector_exit_velocity s car v0 := exitvel_nonneg s car v0 hmax
    have hM : 0 ≤ get_sector_max_velocity s car := maxvel_nonneg s car hmax
    have hentry2 : 0 ≤ if v0 > get_sector_max_velocity s car
        then get_sector_max_velocity s car else v0 := by
      split_ifs
      · exact hM
      · exact h0
    have hexit2 : 0 ≤ if get_sector_exit_velocity s car v0 > get_sector_max_velocity s car
        then get_sector_max_velocity s car else get_sector_exit_velocity s car v0 := by
      split_ifs
      · exact hM
      · exact hx
    have htail := ih _ hexit2
    constructor
    · intro a ha
      rcases List.mem_cons.mp ha with h | h
      · exact h ▸ hentry2
      · exact htail.1 a h
    · intro a ha
      rcases List.mem_cons.mp ha with h | h
      · exact h ▸ hexit2
      · exact htail.2 a h

theorem backwardAux_nonneg (ss : List Sector) (car : Car) (hmax : 0 ≤ car.max_velocity) :
    ∀ (k : ℕ) (es xs : List ℝ) (last : ℕ),
      (∀ a ∈ es, 0 ≤ a) → (∀ a ∈ xs, 0 ≤ a) →
      (∀ a ∈ (backwardStepsAux ss car k es xs last).1, 0 ≤ a) ∧
      (∀ a ∈ (backwardStepsAux ss car k es xs last).2, 0 ≤ a) := by
  intro k
  induction k with
  | zero =>
    intro es xs last he hx
    simp only [backwardStepsAux]
    exact ⟨he, hx⟩
  | succ m ih =>
    intro es xs last he hx
    simp only [backwardStepsAux]
    split_ifs with h1 h2
    · have he2 : ∀ a ∈ es.set m (get_sector_entry_velocity (ss.getD m default) car
          (es.getD last 0)), 0 ≤ a :=
        forall_mem_set _ _ _ he (entryvel_nonneg _ _ _ hmax)
      exact ih _ _ _ he2 (forall_mem_set _ _ _ hx (getD_nonneg _ he2 _))
    · exact ih _ _ _ he (forall_mem_set _ _ _ hx (getD_nonneg _ he _))
    · exact ih _ _ _ he hx

theorem backwardAux_untouched (ss : List Sector) (car : Car) :
    ∀ (k : ℕ) (es xs : List ℝ) (last : ℕ) (i : ℕ), k ≤ i →
      (backwardStepsAux ss car k es xs last).1.getD i 0 = es.getD i 0 ∧
      (backwardStepsAux ss car k es xs last).2.getD i 0 = xs.getD i 0 := by
  intro k
  induction k with
  | zero =>
    intro es xs last i hi
    simp [backwardStepsAux]
  | succ m ih =>
    intro es xs last i hi
    simp only [backwardStepsAux]
    split_ifs with h1 h2
    · constructor
      · rw [(ih _ _ _ i (by omega)).1, getD_set_other _ i m _ (by omega)]
      · rw [(ih _ _ _ i (by omega)).2, getD_set_other _ i m _ (by omega)]
    · constructor
      · rw [(ih _ _ _ i (by omega)).1]
      · rw [(ih _ _ _ i (by omega)).2, getD_set_other _ i m _ (by omega)]
    · exact ih _ _ _ i (by omega)

theorem backwardAux_pair_head (ss : List Sector) (car : Car) (i : ℕ) (es xs : List ℝ)
    (hlen : i < xs.length) :
    (backwardStepsAux ss car (i + 1) es xs (i + 1)).2.getD i 0 ≤
    (backwardStepsAux ss car (i + 1) es xs (i + 1)).1.getD (i + 1) 0 := by
  simp only [backwardStepsAux]
  split_ifs with h1 h2
  · rw [(backwardAux_untouched ss car i _ _ i i le_rfl).2,
      (backwardAux_untouched ss car i _ _ i (i + 1) (by omega)).1]
    rw [getD_set_self _ i _ hlen]
  · rw [(backwardAux_untouched ss car i _ _ i i le_rfl).2,
      (backwardAux_untouched ss car i _ _ i (i + 1) (by omega)).1]
    rw [getD_set_self _ i _ hlen]
  · rw [(backwardAux_untouched ss car i _ _ i i le_rfl).2,
      (backwardAux_untouched ss car i _ _ i (i + 1) (by omega)).1]
    exact not_lt.mp h1

theorem backwardAux_pairs (ss : List Sector) (car : Car) :
    ∀ (k : ℕ) (es xs : List ℝ) (last : ℕ), k ≤ xs.length →
      ∀ i, i + 1 < k →
      (backwardStepsAux ss car k es xs last).2.getD i 0 ≤
      (backwardStepsAux ss car k es xs last).1.getD (i + 1) 0 := by
  intro k
  induction k with
  | zero =>
    intro es xs last hk i hi
    omega
  | succ m ih =>
    intro es xs last hk i hi
    have step : ∀ (es2 xs2 : List ℝ), xs2.length = xs.length →
        (backwardStepsAux ss car m es2 xs2 m).2.getD i 0 ≤
        (backwardStepsAux ss car m es2 xs2 m).1.getD (i + 1) 0 := by
      intro es2 xs2 hlen2
      rcases Nat.lt_or_ge (i + 1) m with hlt | hge
      · exact ih es2 xs2 m (by omega) i hlt
      · have heq : i + 1 = m := by omega
        subst heq
        exact backwardAux_pair_head ss car i es2 xs2 (by omega)
    simp only [backwardStepsAux]
    split_ifs with h1 h2
    · exact step _ _ (by simp)
    · exact step _ _ (by simp)
    · exact step _ _ rfl

/-- Claim C10 (amended): after both passes, for every non-wraparound pair of
consecutive sectors the final exit velocity of sector i is at most the final
entry velocity of sector i+1.  The wraparound pair may be violated, because
the backward pass compares the last exit against the first entry before the
first entry is lowered at its final step (see the counterexample). -/
theorem claim10_interior_pairs_monotone (rl : RacingLine) (car : Car) (v0 : ℝ)
    (i : ℕ) (hi : i + 1 < rl.sectors.length) :
    (lapVelocities rl car v0).2.getD i 0 ≤ (lapVelocities rl car v0).1.getD (i + 1) 0 := by
  simp only [lapVelocities]
  exact backwardAux_pairs rl.sectors car rl.sectors.length _ _ 0
    (le_of_eq (forwardPass_lengths rl.sectors car v0).2.symm) i hi

theorem claim10_witness :
    0 + 1 < line4.sectors.length ∧
    (lapVelocities line4 testCar 0).2.getD 0 0 ≤ (lapVelocities line4 testCar 0).1.getD 1 0 := by
  have h : 0 + 1 < line4.sectors.length := by
    have h2 : line4.sectors.length = 2 := rfl
    omega
  exact ⟨h, claim10_interior_pairs_monotone line4 testCar 0 0 h⟩

/-- Claim C4: calculate_lap_time is exactly the sum over all sectors of
2 * length / (entry + exit) with the entry and exit velocities produced by
the forward and backward passes (lapVelocities), and with a nonnegative
starting velocity and max velocity the result is a nonnegative scalar. -/
theorem claim4_lap_time_harmonic_sum_nonneg (rl : RacingLine) (car : Car) (v0 : ℝ)
    (h0 : 0 ≤ v0) (hmax : 0 ≤ car.max_velocity) :
    calculate_lap_time rl car v0 =
      (∑ idx in Finset.range rl.sectors.length,
        2 * (rl.sectors.getD idx default).length /
          ((lapVelocities rl car v0).1.getD idx 0 + (lapVelocities rl car v0).2.getD idx 0)) ∧
    0 ≤ calculate_lap_time rl car v0 := by
  have hsum : calculate_lap_time rl car v0 =
      (∑ idx in Finset.range rl.sectors.length,
        2 * (rl.sectors.getD idx default).length /
          ((lapVelocities rl car v0).1.getD idx 0 + (lapVelocities rl car v0).2.getD idx 0)) := by
    simp only [calculate_lap_time]
    rw [foldl_add_eq_sum, zero_add, sum_map_range_eq]
  refine ⟨hsum, ?_⟩
  rw [hsum]
  apply Finset.sum_nonneg
  intro idx _
  have hf := forwardPass_nonneg rl.sectors car hmax v0 h0
  have hb := backwardAux_nonneg rl.sectors car hmax rl.sectors.length _ _ 0 hf.1 hf.2
  apply div_nonneg (mul_nonneg (by norm_num) (sector_length_nonneg _))
  simp only [lapVelocities]
  exact add_nonneg (getD_nonneg _ hb.1 idx) (getD_nonneg _ hb.2 idx)

theorem claim4_witness :
    (0 : ℝ) ≤ 6 ∧ (0 : ℝ) ≤ testCar.max_velocity ∧
      0 ≤ calculate_lap_time testLine testCar 6 := by
  refine ⟨by norm_num, by norm_num [testCar], ?_⟩
  exact (claim4_lap_time_harmonic_sum_nonneg testLine testCar 6 (by norm_num)
    (by norm_num [testCar])).2
